import Mathlib

/-!
Shallow embedding of the quiz application in `src/app/page.tsx`.

The React component state (`useState` hooks) is collected into one
`AppState` structure; each event handler (`startQuiz`, `handleAnswer`,
`handleNext`, `handlePrev`, `finishQuiz`, `backToMenu`, `clearHistory`,
`handleCountChange`) becomes a pure state-transition function.  The
`localStorage` writes are mirrored in the `persistedHistory` /
`persistedStats` fields.  `Math.random`-driven shuffling is modelled by
passing an explicit choice function `rand : Nat → Nat`; at loop position
`i` the source draws `j = Math.floor(Math.random() * (i+1)) ∈ [0, i]`,
modelled here as `rand i % (i+1)`.  JavaScript's `Number(answer)`
string-to-number conversion is modelled as `String.toInt?`, with the
`NaN` outcome represented by `none` (and `NaN === x` being false for all
`x`, a `none` result never equals a selected option index).
-/

namespace Quiz

/-- A question row, as in the `Question` type of `page.tsx`. -/
structure Question where
  question : String
  option1 : String
  option2 : String
  option3 : String
  option4 : String
  answer : String
  explanation : String
deriving DecidableEq, Repr, Inhabited

/-- A mistake snapshot, as in the `MistakeRecord` type of `page.tsx`. -/
structure MistakeRecord where
  question : String
  correctAnswer : String
deriving DecidableEq, Repr

/-- One history-ledger entry, as in the `HistoryItem` type of `page.tsx`. -/
structure HistoryItem where
  date : String
  score : Nat
  total : Nat
  mode : String
  mistakes : List MistakeRecord
deriving DecidableEq, Repr

/-- A shuffled option as displayed, as in the `DisplayOption` type. -/
structure DisplayOption where
  text : String
  originalIndex : Nat
deriving DecidableEq, Repr

/-- Per-question cumulative counters (the `{ total, correct }` record held
in the `QuestionStats` map of `page.tsx`). -/
structure QStat where
  total : Nat
  correct : Nat
deriving DecidableEq, Repr

/-- The `questionStats` JavaScript object, modelled as an association list
from question text to counters; lookups go through `getStat`, which
mirrors `questionStats[q] || { total: 0, correct: 0 }`. -/
def QuestionStats : Type := List (String × QStat)

instance : DecidableEq QuestionStats := by
  unfold QuestionStats; infer_instance

/-- `questionStats[q] || { total: 0, correct: 0 }` from `page.tsx`. -/
def getStat (stats : QuestionStats) (q : String) : QStat :=
  (List.lookup q stats).getD ⟨0, 0⟩

/-- The `gameState` values of `page.tsx`. -/
inductive GameState where
  | loading | menu | quiz | result | history | stats
deriving DecidableEq, Repr

/-- Swap the elements at positions `i` and `j` of a list (the effect of
`[a[i], a[j]] = [a[j], a[i]]` in `shuffleArray`); out-of-range indices
leave the list unchanged (they cannot occur in `shuffleArray`). -/
def swapIdx (l : List α) (i j : Nat) : List α :=
  match l.get? i, l.get? j with
  | some x, some y => (l.set i y).set j x
  | _, _ => l

/-- The descending loop of `shuffleArray`: positions `i, i-1, …, 1`, each
swapped with a chosen position at-or-before it. -/
def fyLoop (rand : Nat → Nat) : Nat → List α → List α
  | 0, l => l
  | i + 1, l => fyLoop rand i (swapIdx l (i + 1) (rand (i + 1) % (i + 2)))

/-- `shuffleArray` from `page.tsx`: copy the input, then Fisher–Yates from
the last position down to 1.  The random draws are supplied by `rand`. -/
def shuffleArray (rand : Nat → Nat) (l : List α) : List α :=
  fyLoop rand (l.length - 1) l

/-- Inserting `x` in front is, up to permutation, the same as writing `x`
over a position holding `y` and putting `y` in front. -/
theorem cons_set_perm : ∀ (t : List α) (k : Nat) (x y : α),
    t.get? k = some y → List.Perm (x :: t) (y :: t.set k x)
  | [], k, _, _, h => by simp [List.get?] at h
  | a :: t, 0, x, y, h => by
    simp only [List.get?] at h
    cases h
    exact List.Perm.swap a x t
  | a :: t, k + 1, x, y, h => by
    simp only [List.get?] at h
    have ih := cons_set_perm t k x y h
    exact (List.Perm.swap a x t).trans
      ((List.Perm.cons a ih).trans (List.Perm.swap y a (t.set k x)))

/-- Writing `l[j]` at position `i` and `l[i]` at position `j` permutes `l`. -/
theorem set_set_perm : ∀ (l : List α) (i j : Nat) (x y : α),
    l.get? i = some x → l.get? j = some y →
    List.Perm ((l.set i y).set j x) l
  | [], i, _, _, _, hi, _ => by simp [List.get?] at hi
  | a :: t, 0, 0, x, y, hi, hj => by
    simp only [List.get?] at hi hj
    cases hi; cases hj
    simp [List.set]
  | a :: t, 0, k + 1, x, y, hi, hj => by
    simp only [List.get?] at hi hj
    cases hi
    simpa [List.set] using (cons_set_perm t k a y hj).symm
  | a :: t, m + 1, 0, x, y, hi, hj => by
    simp only [List.get?] at hi hj
    cases hj
    simpa [List.set] using (cons_set_perm t m a x hi).symm
  | a :: t, m + 1, k + 1, x, y, hi, hj => by
    simp only [List.get?] at hi hj
    simpa [List.set] using List.Perm.cons a (set_set_perm t m k x y hi hj)

/-- One swap step permutes the list. -/
theorem swapIdx_perm (l : List α) (i j : Nat) : List.Perm (swapIdx l i j) l := by
  unfold swapIdx
  cases hi : l.get? i with
  | none => exact List.Perm.refl l
  | some x =>
    cases hj : l.get? j with
    | none => exact List.Perm.refl l
    | some y => exact set_set_perm l i j x y hi hj

/-- The whole descending swap loop permutes the list. -/
theorem fyLoop_perm (rand : Nat → Nat) :
    ∀ (n : Nat) (l : List α), List.Perm (fyLoop rand n l) l
  | 0, l => List.Perm.refl l
  | n + 1, l =>
    (fyLoop_perm rand n _).trans (swapIdx_perm l (n + 1) (rand (n + 1) % (n + 2)))

/-- `Number(s)` from JavaScript, modelled for the unsigned decimal
strings the question data's `answer` column holds; any other string
behaves as `NaN`, represented by `none` (`NaN === x` is false for every
`x`, so a `none` result never equals a selected option index). -/
def answerNum (s : String) : Option Int :=
  if s.data ≠ [] ∧ s.data.all (fun c => c.isDigit) then
    some ((s.data.foldl (fun n c => n * 10 + (c.toNat - 48)) 0 : Nat) : Int)
  else none

/-- The component state of `Home` in `page.tsx`: every `useState` hook,
plus mirrors of the two `localStorage` keys written by the handlers. -/
structure AppState where
  gameState : GameState
  allQuestions : List Question
  activeQuestions : List Question
  history : List HistoryItem
  questionStats : QuestionStats
  currentIndex : Nat
  isCorrect : Option Bool
  userSelectedIndex : Option Nat
  solvedQuestions : List Nat
  currentOptions : List DisplayOption
  selectedCount : Nat
  persistedHistory : List HistoryItem
  persistedStats : QuestionStats
deriving DecidableEq

/-- `activeQuestions[currentIndex]` (total: a default question stands for
the `undefined` that JavaScript would produce out of range; in the quiz
state the index is always in range). -/
def currentQuestion (s : AppState) : Question :=
  (s.activeQuestions.get? s.currentIndex).getD default

/-- `generateShuffledOptions` from `page.tsx`. -/
def generateShuffledOptions (optRand : Nat → Nat) (q : Question) : List DisplayOption :=
  shuffleArray optRand
    [⟨q.option1, 1⟩, ⟨q.option2, 2⟩, ⟨q.option3, 3⟩, ⟨q.option4, 4⟩]

/-- `startQuiz` from `page.tsx`.  `rand` drives the question shuffle and
`optRand` the option shuffle for the first question.  The guard
`selectedCount <= 0` (alert and return) is `selectedCount = 0` here since
the count is a natural number in every reachable state. -/
def startQuiz (rand optRand : Nat → Nat) (s : AppState) : AppState :=
  if s.selectedCount = 0 then s
  else
    let shuffled := shuffleArray rand s.allQuestions
    let questionsToPlay :=
      if s.selectedCount < shuffled.length then shuffled.take s.selectedCount
      else shuffled
    { s with
      activeQuestions := questionsToPlay
      currentIndex := 0
      solvedQuestions := []
      isCorrect := none
      userSelectedIndex := none
      currentOptions :=
        match questionsToPlay with
        | [] => s.currentOptions
        | q :: _ => generateShuffledOptions optRand q
      gameState := GameState.quiz }

/-- Lines 154–161 of `page.tsx`: bump the attempt counter for `q`,
bumping the correct counter iff `result`; a missing entry starts from
`{ total: 0, correct: 0 }`. -/
def recordAttempt (stats : QuestionStats) (q : String) (result : Bool) : QuestionStats :=
  let currentStat := getStat stats q
  (q, ⟨currentStat.total + 1, currentStat.correct + (if result then 1 else 0)⟩) :: stats

/-- `new Set(prev)` followed by `newSet.add(currentIndex)`: the JavaScript
`Set` is modelled as a duplicate-free list, so adding an element already
present changes nothing. -/
def setAdd (i : Nat) (l : List Nat) : List Nat :=
  if i ∈ l then l else i :: l

/-- `handleAnswer(displayIndex)` from `page.tsx`. -/
def handleAnswer (displayIndex : Nat) (s : AppState) : AppState :=
  if s.isCorrect.isSome then s
  else
    let selectedOriginalIndex :=
      ((s.currentOptions.get? displayIndex).map DisplayOption.originalIndex).getD 0
    let result :=
      match answerNum (currentQuestion s).answer with
      | some n => n = (selectedOriginalIndex : Int)
      | none => false
    let newStats := recordAttempt s.questionStats (currentQuestion s).question result
    { s with
      userSelectedIndex := some displayIndex
      isCorrect := some result
      questionStats := newStats
      persistedStats := newStats
      solvedQuestions :=
        if result then setAdd s.currentIndex s.solvedQuestions
        else s.solvedQuestions }

/-- The option texts `[q.option1, …, q.option4]` used in `finishQuiz`. -/
def optionTexts (q : Question) : List String :=
  [q.option1, q.option2, q.option3, q.option4]

/-- `options[correctIndex] || ` fallback from `finishQuiz`: an in-range
lookup whose text is non-empty (truthy) yields that text, anything else
(out-of-range index, `NaN`, or an empty option) yields the placeholder. -/
def correctAnswerText (q : Question) : String :=
  let fallback := "選択肢" ++ q.answer
  match answerNum q.answer with
  | none => fallback
  | some n =>
    if 1 ≤ n ∧ n ≤ 4 then
      let t := ((optionTexts q).get? (n - 1).toNat).getD ""
      if t = "" then fallback else t
    else fallback

/-- The mistake-collection loop of `finishQuiz`: every position below
`actualTotal` not in the solved set yields a `MistakeRecord`. -/
def mistakesFor (s : AppState) (actualTotal : Nat) : List MistakeRecord :=
  (List.range actualTotal).filterMap fun i =>
    if i ∈ s.solvedQuestions then none
    else
      let q := (s.activeQuestions.get? i).getD default
      some ⟨q.question, correctAnswerText q⟩

/-- `[newHistoryItem, ...history].slice(0, 50)` from `finishQuiz`. -/
def appendHistory (item : HistoryItem) (history : List HistoryItem) : List HistoryItem :=
  (item :: history).take 50

/-- `backToMenu` from `page.tsx`: only the screen changes. -/
def backToMenu (s : AppState) : AppState :=
  { s with gameState := GameState.menu }

/-- The tail of `finishQuiz` (lines 210–236 of `page.tsx`): build the
history item for `actualTotal` / `modeText`, prepend-and-cap the history,
persist it, and show the result screen. -/
def recordOutcome (now : String) (s : AppState) (actualTotal : Nat) (modeText : String) :
    AppState :=
  let newHistoryItem : HistoryItem :=
    { date := now
      score := s.solvedQuestions.length
      total := actualTotal
      mode := modeText
      mistakes := mistakesFor s actualTotal }
  let newHistory := appendHistory newHistoryItem s.history
  { s with
    history := newHistory
    persistedHistory := newHistory
    gameState := GameState.result }

/-- `finishQuiz(isEarlyExit)` from `page.tsx`; `now` stands for the
`new Date().toLocaleString()` timestamp. -/
def finishQuiz (isEarlyExit : Bool) (now : String) (s : AppState) : AppState :=
  let baseMode :=
    if s.activeQuestions.length = s.allQuestions.length then "全問"
    else toString s.activeQuestions.length ++ "問"
  match isEarlyExit with
  | true =>
    if (if s.isCorrect.isSome then s.currentIndex + 1 else s.currentIndex) = 0 then
      backToMenu s
    else
      recordOutcome now s (if s.isCorrect.isSome then s.currentIndex + 1 else s.currentIndex)
        (baseMode ++ "(途中)")
  | false => recordOutcome now s s.activeQuestions.length baseMode

/-- `handleNext` from `page.tsx`. -/
def handleNext (optRand : Nat → Nat) (now : String) (s : AppState) : AppState :=
  if s.currentIndex + 1 < s.activeQuestions.length then
    { s with
      isCorrect := none
      userSelectedIndex := none
      currentIndex := s.currentIndex + 1
      currentOptions :=
        generateShuffledOptions optRand
          ((s.activeQuestions.get? (s.currentIndex + 1)).getD default) }
  else finishQuiz false now s

/-- `handlePrev` from `page.tsx`. -/
def handlePrev (optRand : Nat → Nat) (s : AppState) : AppState :=
  if 0 < s.currentIndex then
    let prevIndex := s.currentIndex - 1
    { s with
      isCorrect := none
      userSelectedIndex := none
      currentIndex := prevIndex
      currentOptions :=
        generateShuffledOptions optRand ((s.activeQuestions.get? prevIndex).getD default) }
  else s

/-- `clearHistory` from `page.tsx` (the confirmed branch). -/
def clearHistory (s : AppState) : AppState :=
  { s with
    history := []
    questionStats := []
    persistedHistory := []
    persistedStats := [] }

/-- `handleCountChange` from `page.tsx`: accepted iff
`0 ≤ val ≤ allQuestions.length`. -/
def handleCountChange (n : Nat) (s : AppState) : AppState :=
  if n ≤ s.allQuestions.length then { s with selectedCount := n } else s

/-- The state after the startup effect of `page.tsx` has completed on a
first run (no saved history or statistics): the bank holds the loaded
rows, `selectedCount` is clamped to the bank size when the load yielded
fewer than 10 rows, and the screen is `menu`. -/
def init (data : List Question) : AppState :=
  { gameState := GameState.menu
    allQuestions := data
    activeQuestions := []
    history := []
    questionStats := []
    currentIndex := 0
    isCorrect := none
    userSelectedIndex := none
    solvedQuestions := []
    currentOptions := []
    selectedCount := if 0 < data.length ∧ data.length < 10 then data.length else 10
    persistedHistory := []
    persistedStats := [] }

/-- A user-interface event.  Shuffle-driving choice functions and the
timestamp accompany the events whose handlers consume them. -/
inductive Event where
  | start (rand optRand : Nat → Nat)
  | answer (displayIndex : Nat)
  | next (optRand : Nat → Nat) (now : String)
  | prev (optRand : Nat → Nat)
  | finishEarly (now : String)
  | back
  | clear
  | setCount (n : Nat)
  | gotoHistory
  | gotoStats

/-- One user event, gated by the screen on which `page.tsx` renders the
corresponding control: the quiz controls exist only while a current
question is displayed (`gameState === 'quiz' && currentQ`), the next
button only once the question is answered, and an answer button only for
one of the displayed options. -/
def step (s : AppState) (e : Event) : AppState :=
  match e with
  | Event.start rand optRand =>
    if s.gameState = GameState.menu ∨ s.gameState = GameState.result then
      startQuiz rand optRand s
    else s
  | Event.answer d =>
    if s.gameState = GameState.quiz ∧ s.currentIndex < s.activeQuestions.length ∧
        d < s.currentOptions.length then
      handleAnswer d s
    else s
  | Event.next optRand now =>
    if s.gameState = GameState.quiz ∧ s.currentIndex < s.activeQuestions.length ∧
        s.isCorrect.isSome then
      handleNext optRand now s
    else s
  | Event.prev optRand =>
    if s.gameState = GameState.quiz ∧ s.currentIndex < s.activeQuestions.length then
      handlePrev optRand s
    else s
  | Event.finishEarly now =>
    if s.gameState = GameState.quiz ∧ s.currentIndex < s.activeQuestions.length then
      finishQuiz true now s
    else s
  | Event.back =>
    if s.gameState = GameState.quiz ∨ s.gameState = GameState.result ∨
        s.gameState = GameState.history ∨ s.gameState = GameState.stats then
      backToMenu s
    else s
  | Event.clear =>
    if s.gameState = GameState.history ∨ s.gameState = GameState.stats then
      clearHistory s
    else s
  | Event.setCount n =>
    if s.gameState = GameState.menu then handleCountChange n s else s
  | Event.gotoHistory =>
    if s.gameState = GameState.menu ∨ s.gameState = GameState.result then
      { s with gameState := GameState.history }
    else s
  | Event.gotoStats =>
    if s.gameState = GameState.menu ∨ s.gameState = GameState.result then
      { s with gameState := GameState.stats }
    else s

/-- Run a sequence of user events from a state. -/
def run (s : AppState) (es : List Event) : AppState :=
  es.foldl step s

/-- One row of the statistics screen: the question together with its
counters and percentage accuracy (a rational standing for the JavaScript
number `(stat.correct / stat.total) * 100`, or `0` with no attempts). -/
structure StatRow where
  question : Question
  statTotal : Nat
  statCorrect : Nat
  accuracy : ℚ
deriving DecidableEq

/-- The `map` step of `getSortedStats`. -/
def statRow (stats : QuestionStats) (q : Question) : StatRow :=
  let stat := getStat stats q.question
  { question := q
    statTotal := stat.total
    statCorrect := stat.correct
    accuracy := if 0 < stat.total then (stat.correct : ℚ) / stat.total * 100 else 0 }

/-- The comparator passed to `sort` in `getSortedStats` (its numeric
return value, as a rational). -/
def statCmp (a b : StatRow) : ℚ :=
  if a.statTotal = 0 ∧ 0 < b.statTotal then 1
  else if 0 < a.statTotal ∧ b.statTotal = 0 then -1
  else if a.accuracy ≠ b.accuracy then a.accuracy - b.accuracy
  else (b.statTotal : ℚ) - (a.statTotal : ℚ)

/-- `a` may come before `b` under the comparator. -/
def statLE (a b : StatRow) : Bool :=
  statCmp a b ≤ 0

/-- `getSortedStats` from `page.tsx`: map every bank question to its row,
then sort by the comparator. -/
def getSortedStats (stats : QuestionStats) (allQuestions : List Question) : List StatRow :=
  (allQuestions.map (statRow stats)).mergeSort statLE

/-- Unfolded characterisation of `statLE`. -/
theorem statLE_iff (a b : StatRow) :
    statLE a b = true ↔
      (0 < a.statTotal ∧ b.statTotal = 0) ∨
      (((a.statTotal = 0) ↔ (b.statTotal = 0)) ∧
        (a.accuracy < b.accuracy ∨
          (a.accuracy = b.accuracy ∧ b.statTotal ≤ a.statTotal))) := by
  have hd : statLE a b = true ↔ statCmp a b ≤ 0 := by
    unfold statLE
    exact decide_eq_true_iff
  rw [hd]
  unfold statCmp
  split_ifs with h1 h2 h3
  · constructor
    · intro h; norm_num at h
    · rintro (⟨ha, _⟩ | ⟨hiff, _⟩)
      · exact absurd h1.1 (by omega)
      · have hb0 := hiff.mp h1.1
        exact absurd h1.2 (by omega)
  · constructor
    · intro _; exact Or.inl h2
    · intro _; norm_num
  · constructor
    · intro h
      refine Or.inr ⟨by omega, Or.inl (lt_of_le_of_ne (by linarith) h3)⟩
    · rintro (⟨ha, hb⟩ | ⟨hiff, hacc | ⟨heq, _⟩⟩)
      · exact absurd (And.intro ha hb) h2
      · linarith
      · exact absurd heq h3
  · have heq : a.accuracy = b.accuracy := not_ne_iff.mp h3
    constructor
    · intro h
      have hc : (b.statTotal : ℚ) ≤ (a.statTotal : ℚ) := by linarith
      exact Or.inr ⟨by omega, Or.inr ⟨heq, by exact_mod_cast hc⟩⟩
    · rintro (⟨ha, hb⟩ | ⟨hiff, hacc | ⟨_, hle⟩⟩)
      · exact absurd (And.intro ha hb) h2
      · exact absurd heq (ne_of_lt hacc)
      · have hc : (b.statTotal : ℚ) ≤ (a.statTotal : ℚ) := by exact_mod_cast hle
        linarith

/-- The comparator order is transitive. -/
theorem statLE_trans (a b c : StatRow)
    (hab : statLE a b = true) (hbc : statLE b c = true) : statLE a c = true := by
  rw [statLE_iff] at hab hbc ⊢
  rcases hab with ⟨ha, hb⟩ | ⟨hab_iff, hab_acc⟩
  · rcases hbc with ⟨hb', _⟩ | ⟨hbc_iff, _⟩
    · exact absurd hb (by omega)
    · exact Or.inl ⟨ha, hbc_iff.mp hb⟩
  · rcases hbc with ⟨hb', hc⟩ | ⟨hbc_iff, hbc_acc⟩
    · have ha' : 0 < a.statTotal := by
        rcases Nat.eq_zero_or_pos a.statTotal with h0 | h0
        · exact absurd (hab_iff.mp h0) (by omega)
        · exact h0
      exact Or.inl ⟨ha', hc⟩
    · refine Or.inr ⟨hab_iff.trans hbc_iff, ?_⟩
      rcases hab_acc with h1 | ⟨h1, h1t⟩
      · rcases hbc_acc with h2 | ⟨h2, _⟩
        · exact Or.inl (h1.trans h2)
        · exact Or.inl (h2 ▸ h1)
      · rcases hbc_acc with h2 | ⟨h2, h2t⟩
        · exact Or.inl (h1 ▸ h2)
        · exact Or.inr ⟨h1.trans h2, h2t.trans h1t⟩

/-- The comparator order is total. -/
theorem statLE_total (a b : StatRow) : (statLE a b || statLE b a) = true := by
  rw [Bool.or_eq_true, statLE_iff, statLE_iff]
  rcases Nat.eq_zero_or_pos a.statTotal with ha | ha <;>
    rcases Nat.eq_zero_or_pos b.statTotal with hb | hb
  · rcases lt_trichotomy a.accuracy b.accuracy with h | h | h
    · exact Or.inl (Or.inr ⟨by omega, Or.inl h⟩)
    · exact Or.inl (Or.inr ⟨by omega, Or.inr ⟨h, by omega⟩⟩)
    · exact Or.inr (Or.inr ⟨by omega, Or.inl h⟩)
  · exact Or.inr (Or.inl ⟨hb, ha⟩)
  · exact Or.inl (Or.inl ⟨ha, hb⟩)
  · rcases lt_trichotomy a.accuracy b.accuracy with h | h | h
    · exact Or.inl (Or.inr ⟨by omega, Or.inl h⟩)
    · rcases Nat.le_total b.statTotal a.statTotal with hle | hle
      · exact Or.inl (Or.inr ⟨by omega, Or.inr ⟨h, hle⟩⟩)
      · exact Or.inr (Or.inr ⟨by omega, Or.inr ⟨h.symm, hle⟩⟩)
    · exact Or.inr (Or.inr ⟨by omega, Or.inl h⟩)

/-- The accuracy shown on the result screen of `page.tsx`:
`Math.round((currentScore / (history[0]?.total || activeQuestions.length)) * 100)`.
A zero or absent leading total (falsy) falls back to the active-session
length.  `Math.round (100 * score / denom) = ⌊(100 * score / denom) + 1/2⌋`
is computed exactly over the naturals as `(200 * score + denom) / (2 * denom)`
(for the `denom = 0` edge, which no recorded session reaches, the model
reads 0). -/
def resultAccuracy (s : AppState) : Nat :=
  let denom : Nat :=
    match s.history.head? with
    | some it => if it.total = 0 then s.activeQuestions.length else it.total
    | none => s.activeQuestions.length
  (200 * s.solvedQuestions.length + denom) / (2 * denom)

/-- The spec's effective total for an early exit, in its own words: the
count of questions the user has reached, inclusive of the current one if
it was answered, exclusive otherwise. -/
def effectiveTotalSpec (s : AppState) : Nat :=
  if s.isCorrect.isSome then s.currentIndex + 1 else s.currentIndex

/-- The statistics-map invariant claimed by the spec. -/
def StatsOK (st : QuestionStats) : Prop :=
  ∀ q, (getStat st q).correct ≤ (getStat st q).total

/-- How `recordAttempt` acts on lookups: the touched key is bumped, all
other keys read as before. -/
theorem getStat_recordAttempt (stats : QuestionStats) (q : String) (r : Bool) (q' : String) :
    getStat (recordAttempt stats q r) q' =
      if q' = q then
        ⟨(getStat stats q).total + 1, (getStat stats q).correct + (if r then 1 else 0)⟩
      else getStat stats q' := by
  unfold recordAttempt getStat
  by_cases h : q' = q
  · subst h
    simp [List.lookup]
  · rw [if_neg h]
    simp [List.lookup, beq_eq_false_iff_ne.mpr h]

theorem statsOK_nil : StatsOK [] := by
  intro q
  simp [getStat, List.lookup]

theorem statsOK_recordAttempt {st : QuestionStats} (h : StatsOK st) (q : String) (r : Bool) :
    StatsOK (recordAttempt st q r) := by
  intro t
  rw [getStat_recordAttempt]
  by_cases ht : t = q
  · rw [if_pos ht]
    have := h q
    cases r <;> simp <;> omega
  · rw [if_neg ht]
    exact h t

theorem questionStats_startQuiz (rand optRand : Nat → Nat) (s : AppState) :
    (startQuiz rand optRand s).questionStats = s.questionStats := by
  unfold startQuiz
  split <;> rfl

theorem questionStats_finishQuiz (e : Bool) (now : String) (s : AppState) :
    (finishQuiz e now s).questionStats = s.questionStats := by
  unfold finishQuiz backToMenu recordOutcome
  cases e
  · rfl
  · dsimp only
    split <;> split <;> rfl

theorem statsOK_handleAnswer {s : AppState} (h : StatsOK s.questionStats) (d : Nat) :
    StatsOK (handleAnswer d s).questionStats := by
  unfold handleAnswer
  split
  · exact h
  · exact statsOK_recordAttempt h _ _

theorem statsOK_step {s : AppState} (e : Event) (h : StatsOK s.questionStats) :
    StatsOK (step s e).questionStats := by
  cases e with
  | start rand optRand =>
    simp only [step]
    split
    · rw [questionStats_startQuiz]; exact h
    · exact h
  | answer d =>
    simp only [step]
    split
    · exact statsOK_handleAnswer h d
    · exact h
  | next optRand now =>
    simp only [step]
    split
    · unfold handleNext
      split
      · exact h
      · rw [questionStats_finishQuiz]; exact h
    · exact h
  | prev optRand =>
    simp only [step]
    split
    · unfold handlePrev
      split
      · exact h
      · exact h
    · exact h
  | finishEarly now =>
    simp only [step]
    split
    · rw [questionStats_finishQuiz]; exact h
    · exact h
  | back =>
    simp only [step]
    split
    · exact h
    · exact h
  | clear =>
    simp only [step]
    split
    · exact statsOK_nil
    · exact h
  | setCount n =>
    simp only [step]
    split
    · unfold handleCountChange
      split
      · exact h
      · exact h
    · exact h
  | gotoHistory =>
    simp only [step]
    split
    · exact h
    · exact h
  | gotoStats =>
    simp only [step]
    split
    · exact h
    · exact h

theorem statsOK_run : ∀ (es : List Event) (s : AppState),
    StatsOK s.questionStats → StatsOK (run s es).questionStats
  | [], _, h => h
  | e :: es, s, h => statsOK_run es (step s e) (statsOK_step e h)

/-- The history-length invariant claimed by the spec. -/
def HistOK (h : List HistoryItem) : Prop :=
  h.length ≤ 50

theorem histOK_appendHistory (item : HistoryItem) (h : List HistoryItem) :
    HistOK (appendHistory item h) := by
  unfold HistOK appendHistory
  simp [List.length_take]

theorem histOK_finishQuiz {s : AppState} (hh : HistOK s.history) (e : Bool) (now : String) :
    HistOK (finishQuiz e now s).history := by
  unfold finishQuiz backToMenu recordOutcome
  cases e
  · exact histOK_appendHistory _ _
  · dsimp only
    split <;> split
    · exact hh
    · exact histOK_appendHistory _ _
    · exact hh
    · exact histOK_appendHistory _ _

theorem histOK_step {s : AppState} (e : Event) (h : HistOK s.history) :
    HistOK (step s e).history := by
  cases e with
  | start rand optRand =>
    simp only [step]
    split
    · unfold startQuiz
      split
      · exact h
      · exact h
    · exact h
  | answer d =>
    simp only [step]
    split
    · unfold handleAnswer
      split
      · exact h
      · exact h
    · exact h
  | next optRand now =>
    simp only [step]
    split
    · unfold handleNext
      split
      · exact h
      · exact histOK_finishQuiz h false now
    · exact h
  | prev optRand =>
    simp only [step]
    split
    · unfold handlePrev
      split
      · exact h
      · exact h
    · exact h
  | finishEarly now =>
    simp only [step]
    split
    · exact histOK_finishQuiz h true now
    · exact h
  | back =>
    simp only [step]
    split
    · exact h
    · exact h
  | clear =>
    simp only [step]
    split
    · simp [clearHistory, HistOK]
    · exact h
  | setCount n =>
    simp only [step]
    split
    · unfold handleCountChange
      split
      · exact h
      · exact h
    · exact h
  | gotoHistory =>
    simp only [step]
    split
    · exact h
    · exact h
  | gotoStats =>
    simp only [step]
    split
    · exact h
    · exact h

theorem histOK_run : ∀ (es : List Event) (s : AppState),
    HistOK s.history → HistOK (run s es).history
  | [], _, h => h
  | e :: es, s, h => histOK_run es (step s e) (histOK_step e h)

/-- A sample question whose correct option is option 2. -/
def tq (t : String) : Question :=
  ⟨t, "a", "b", "c", "d", "2", "e"⟩

/-- A three-question bank. -/
def sampleBank : List Question :=
  [tq "Q1", tq "Q2", tq "Q3"]

/-- A degenerate random source: every draw is 0. -/
def zeroRand : Nat → Nat := fun _ => 0

/-- A session started from the three-question bank (the quiz screen,
first question displayed, nothing answered yet). -/
def quizStart : AppState :=
  run (init sampleBank) [Event.start zeroRand zeroRand]

/-- The session after the first question has been answered correctly
(with `zeroRand`, the correct option 2 is shown at display position 0). -/
def answeredState : AppState :=
  run (init sampleBank) [Event.start zeroRand zeroRand, Event.answer 0]

/-- Answer all three questions correctly, go back one question, then use
the early-exit control. -/
def earlyExitTrace : List Event :=
  [Event.start zeroRand zeroRand, Event.answer 0, Event.next zeroRand "",
   Event.answer 0, Event.next zeroRand "", Event.answer 0,
   Event.prev zeroRand, Event.finishEarly ""]

/-- C1: the claim fails on the code.  In a reachable session (three
questions, all answered correctly, one `previous`, then early exit) the
recorded history item has score 3 but total 1, the solved set has size 3,
and the result-screen accuracy is 300% — so `score ≤ effectiveTotal` and
`accuracy ∈ [0, 100]` are both violated, precisely on the
backward-navigation path the claim singles out. -/
theorem earlyExit_score_exceeds_total :
    (run (init sampleBank) earlyExitTrace).history.map (fun it => (it.score, it.total))
        = [(3, 1)]
    ∧ (run (init sampleBank) earlyExitTrace).solvedQuestions.length = 3
    ∧ resultAccuracy (run (init sampleBank) earlyExitTrace) = 300
    ∧ (run (init sampleBank) earlyExitTrace).gameState = GameState.result := by
  decide

/-- C2: within one pass, answering an already-answered question is a
no-op: whenever `isCorrect` is set, `handleAnswer` returns the state
unchanged — solved set, statistics and all other fields included. -/
theorem handleAnswer_answered_noop (s : AppState) (d : Nat)
    (h : s.isCorrect.isSome = true) : handleAnswer d s = s := by
  unfold handleAnswer
  simp [h]

theorem handleAnswer_answered_noop_witness :
    answeredState.isCorrect.isSome = true ∧ handleAnswer 1 answeredState = answeredState :=
  ⟨by decide, handleAnswer_answered_noop answeredState 1 (by decide)⟩

/-- C3: `finishQuiz true` computes the early-exit effective total as
`currentIndex + 1` when the current question is answered and
`currentIndex` otherwise; a zero count only returns to the menu (history
untouched), otherwise the appended item's total is that count; and
`finishQuiz false` uses the full active-session length. -/
theorem finishQuiz_effectiveTotal (s : AppState) (now : String) :
    (if effectiveTotalSpec s = 0
      then finishQuiz true now s = { s with gameState := GameState.menu }
      else (finishQuiz true now s).history.head?.map HistoryItem.total
              = some (effectiveTotalSpec s)
          ∧ (finishQuiz true now s).history.tail = s.history.take 49
          ∧ (finishQuiz true now s).gameState = GameState.result)
    ∧ (finishQuiz false now s).history.head?.map HistoryItem.total
        = some s.activeQuestions.length := by
  constructor
  · by_cases h0 : effectiveTotalSpec s = 0
    · rw [if_pos h0]
      unfold effectiveTotalSpec at h0
      unfold finishQuiz backToMenu
      dsimp only
      rw [if_pos h0]
    · rw [if_neg h0]
      unfold effectiveTotalSpec at h0 ⊢
      unfold finishQuiz recordOutcome appendHistory
      dsimp only
      rw [if_neg h0]
      refine ⟨rfl, ?_, rfl⟩
      show (List.take 50 (_ :: s.history)).tail = s.history.take 49
      rw [show (50 : Nat) = 49 + 1 from rfl, List.take_succ_cons]
      rfl
  · unfold finishQuiz recordOutcome appendHistory
    dsimp only
    show ((List.take 50 (_ :: s.history)).head?).map HistoryItem.total = _
    rw [show (50 : Nat) = 49 + 1 from rfl, List.take_succ_cons]
    rfl

/-- C4: in every state reachable from startup, every tracked question's
correct count is bounded by its attempt count; `recordAttempt` bumps the
touched question's attempt count by exactly one and its correct count by
one exactly when the answer was correct, reading a zero record for an
untracked question, and every other question's counters read unchanged;
and the initial (empty) mapping reads zero for every question. -/
theorem questionStats_invariant_and_recordAttempt (data : List Question) (es : List Event)
    (stats : QuestionStats) (q q' : String) (r : Bool) :
    (∀ t, (getStat (run (init data) es).questionStats t).correct
        ≤ (getStat (run (init data) es).questionStats t).total)
    ∧ getStat (recordAttempt stats q r) q'
        = (if q' = q
           then ⟨(getStat stats q).total + 1,
                 (getStat stats q).correct + (if r then 1 else 0)⟩
           else getStat stats q')
    ∧ getStat ([] : QuestionStats) q = ⟨0, 0⟩ := by
  refine ⟨statsOK_run es (init data) statsOK_nil, getStat_recordAttempt stats q r q', ?_⟩
  simp [getStat, List.lookup]

/-- C5: the weak-point ranking is a reordering of the per-question rows
in which an attempted row never follows an unattempted one, attempted
rows appear in ascending accuracy order, and equal accuracies among
attempted rows appear in descending attempt-count order. -/
theorem getSortedStats_weakness_ranking (stats : QuestionStats) (qs : List Question) :
    List.Perm (getSortedStats stats qs) (qs.map (statRow stats))
    ∧ (getSortedStats stats qs).Pairwise (fun a b =>
        (a.statTotal = 0 → b.statTotal = 0)
        ∧ (0 < a.statTotal → 0 < b.statTotal →
            a.accuracy ≤ b.accuracy
            ∧ (a.accuracy = b.accuracy → b.statTotal ≤ a.statTotal))) := by
  constructor
  · exact List.mergeSort_perm _ _
  · have hs : ((qs.map (statRow stats)).mergeSort statLE).Pairwise (statLE · ·) :=
      List.sorted_mergeSort statLE_trans statLE_total (qs.map (statRow stats))
    refine hs.imp ?_
    intro a b hab
    rw [statLE_iff] at hab
    rcases hab with ⟨ha, hb⟩ | ⟨hiff, hacc⟩
    · refine ⟨fun h0 => absurd h0 (by omega), fun _ hb' => absurd hb (by omega)⟩
    · refine ⟨fun h0 => hiff.mp h0, fun hpa hpb => ?_⟩
      rcases hacc with hlt | ⟨heq, hle⟩
      · exact ⟨le_of_lt hlt, fun he => absurd he (ne_of_lt hlt)⟩
      · exact ⟨le_of_eq heq, fun _ => hle⟩

/-- C6: appending to the history places the new item at position 0 and
caps the result at 50 entries, and every state reachable from startup
has at most 50 history entries. -/
theorem history_append_capped (item : HistoryItem) (h : List HistoryItem)
    (data : List Question) (es : List Event) :
    (appendHistory item h).head? = some item
    ∧ (appendHistory item h).length ≤ 50
    ∧ (run (init data) es).history.length ≤ 50 := by
  refine ⟨?_, histOK_appendHistory item h, histOK_run es (init data) (by simp [HistOK, init])⟩
  unfold appendHistory
  rw [show (50 : Nat) = 49 + 1 from rfl, List.take_succ_cons]
  rfl

/-- C7: for every random source and every input list, `shuffleArray`
returns a permutation of the input (same multiset, hence same length);
as a pure function it leaves its input untouched. -/
theorem shuffleArray_permutation {α : Type _} (rand : Nat → Nat) (l : List α) :
    List.Perm (shuffleArray rand l) l ∧ (shuffleArray rand l).length = l.length :=
  ⟨fyLoop_perm rand _ l, (fyLoop_perm rand _ l).length_eq⟩

/-- C8: the claim fails on the code.  With an empty bank the default
`selectedCount` is 10, so the start guard passes and the machine
transitions from `menu` to `quiz` with an empty active-question list,
instead of staying in `menu`. -/
theorem startQuiz_empty_bank_enters_quiz :
    (init ([] : List Question)).gameState = GameState.menu
    ∧ (init ([] : List Question)).selectedCount = 10
    ∧ (run (init ([] : List Question)) [Event.start zeroRand zeroRand]).gameState
        = GameState.quiz
    ∧ (run (init ([] : List Question)) [Event.start zeroRand zeroRand]).activeQuestions
        = [] := by
  decide

/-- C9 counterexample: in a reachable quiz state with one correct answer
recorded, `backToMenu` leaves the solved set non-empty and the pending
answer set — the session progress is not discarded, contradicting the
claim as stated. -/
theorem backToMenu_retains_session_progress :
    (backToMenu answeredState).solvedQuestions ≠ ([] : List Nat)
    ∧ (backToMenu answeredState).isCorrect ≠ none := by
  decide

/-- C9 (amended): `backToMenu` changes the screen to `menu` and nothing
else — history, its persisted form, and the statistics are unchanged, and
the session-progress fields survive untouched until the next quiz start,
which resets them (unless the zero-count guard rejects the start). -/
theorem backToMenu_only_gameState (s : AppState) (rand optRand : Nat → Nat) :
    backToMenu s = { s with gameState := GameState.menu }
    ∧ (backToMenu s).history = s.history
    ∧ (backToMenu s).persistedHistory = s.persistedHistory
    ∧ (backToMenu s).questionStats = s.questionStats
    ∧ (backToMenu s).persistedStats = s.persistedStats
    ∧ (startQuiz rand optRand (backToMenu s)).solvedQuestions
        = (if s.selectedCount = 0 then s.solvedQuestions else [])
    ∧ (startQuiz rand optRand (backToMenu s)).isCorrect
        = (if s.selectedCount = 0 then s.isCorrect else none) := by
  refine ⟨rfl, rfl, rfl, rfl, rfl, ?_, ?_⟩ <;>
    · unfold startQuiz backToMenu
      dsimp only
      by_cases h : s.selectedCount = 0
      · rw [if_pos h, if_pos h]
      · rw [if_neg h, if_neg h]

/-- C10: answering an unanswered question never navigates: the index,
the active question list, the screen (still `quiz`), the history and its
persisted form, the displayed options, the bank and the requested count
are all unchanged — only the pending-answer fields, the solved set and
the statistics can change. -/
theorem handleAnswer_frame (s : AppState) (d : Nat)
    (hq : s.gameState = GameState.quiz) (h : s.isCorrect = none) :
    (handleAnswer d s).currentIndex = s.currentIndex
    ∧ (handleAnswer d s).activeQuestions = s.activeQuestions
    ∧ (handleAnswer d s).gameState = GameState.quiz
    ∧ (handleAnswer d s).history = s.history
    ∧ (handleAnswer d s).persistedHistory = s.persistedHistory
    ∧ (handleAnswer d s).currentOptions = s.currentOptions
    ∧ (handleAnswer d s).allQuestions = s.allQuestions
    ∧ (handleAnswer d s).selectedCount = s.selectedCount := by
  unfold handleAnswer
  rw [h]
  exact ⟨rfl, rfl, hq, rfl, rfl, rfl, rfl, rfl⟩

theorem handleAnswer_frame_witness :
    quizStart.gameState = GameState.quiz
    ∧ quizStart.isCorrect = none
    ∧ ((handleAnswer 0 quizStart).currentIndex = quizStart.currentIndex
      ∧ (handleAnswer 0 quizStart).activeQuestions = quizStart.activeQuestions
      ∧ (handleAnswer 0 quizStart).gameState = GameState.quiz
      ∧ (handleAnswer 0 quizStart).history = quizStart.history
      ∧ (handleAnswer 0 quizStart).persistedHistory = quizStart.persistedHistory
      ∧ (handleAnswer 0 quizStart).currentOptions = quizStart.currentOptions
      ∧ (handleAnswer 0 quizStart).allQuestions = quizStart.allQuestions
      ∧ (handleAnswer 0 quizStart).selectedCount = quizStart.selectedCount) :=
  ⟨by decide, by decide, handleAnswer_frame quizStart 0 (by decide) (by decide)⟩

end Quiz
